import Mathlib

/-!
Verification development for the flight-simulation core of this repository
(`js/main.js`, the per-frame physics / particle update loop).

The JavaScript numbers are modelled as real numbers; the module-level `const`
tuning values of `controlParams` and the world constants are embedded as Lean
constants with their default values.  `Math.random()` entropy is passed in
explicitly as a stream `ℕ → ℝ`, so every definition is a pure function of its
arguments, exactly mirroring the single-threaded source.
-/

noncomputable section

namespace FlightSim

/-! ## World constants (module-level `const`s of `js/main.js`) -/

def TERRAIN_SIZE : ℝ := 2500
def TERRAIN_NOISE_SCALE : ℝ := 0.008
def TERRAIN_NOISE_HEIGHT : ℝ := 60
def VOLCANO_RADIUS : ℝ := 600
def VOLCANO_HEIGHT : ℝ := 450
def VOLCANO_SLOPE_FACTOR : ℝ := 1.8
def CRATER_RADIUS : ℝ := 250
def CRATER_DEPTH : ℝ := 80
def CRATER_RIM_WIDTH_FACTOR : ℝ := 0.2
def WATER_LEVEL : ℝ := 5.0
def AIRCRAFT_GROUND_BUFFER : ℝ := 1.5
def WORLD_BOUNDARY : ℝ := TERRAIN_SIZE / 2 * 0.95
def CRASH_VELOCITY_THRESHOLD : ℝ := -15.0

/-! ## `controlParams` defaults -/

def thrustAcceleration : ℝ := 50.0
def afterburnerMultiplier : ℝ := 2.5
def maxSpeed : ℝ := 80.0
def linearDragFactor : ℝ := 0.5
def brakeForce : ℝ := 60.0
def minSpeed : ℝ := 0.5
def pitchRate : ℝ := Real.pi * 0.9
def rollRate : ℝ := Real.pi * 1.2
def yawRate : ℝ := Real.pi * 0.6
def angularAdjustFactor : ℝ := 6.0
def angularDamping : ℝ := 0.94
def cameraSmoothness : ℝ := 0.12
def edgeFogStartDistance : ℝ := WORLD_BOUNDARY * 0.8
def edgeFogFullDistance : ℝ := WORLD_BOUNDARY
def baseFogNear : ℝ := 500
def baseFogFar : ℝ := 3500
def edgeFogNearFactor : ℝ := 0.2
def edgeFogFarFactor : ℝ := 0.5
def explosionParticleCount : ℕ := 2400
def explosionLifetime : ℝ := 0.8
def explosionBaseVelocity : ℝ := 80.0
def explosionVelocitySpread : ℝ := 40.0

def MAX_EXPLOSION_PARTICLES : ℕ := 2500

/-! ## `THREE.MathUtils` helpers used by the source -/

/-- `THREE.MathUtils.clamp(value, min, max) = Math.max(min, Math.min(max, value))`. -/
def clampR (value lo hi : ℝ) : ℝ := max lo (min hi value)

/-- `THREE.MathUtils.lerp(x, y, t) = (1 - t) * x + t * y`. -/
def lerpR (x y t : ℝ) : ℝ := (1 - t) * x + t * y

/-- `THREE.MathUtils.smoothstep(x, min, max)`. -/
def smoothstepR (x lo hi : ℝ) : ℝ :=
  if x ≤ lo then 0
  else if x ≥ hi then 1
  else
    let t := (x - lo) / (hi - lo)
    t * t * (3 - 2 * t)

/-! ## Height field (`getProceduralTerrainHeight`)

The source computes, in one function body: a base rolling-noise height, a
radially symmetric volcano/crater modifier, their sum, and a final clamp.
The three pieces are named here so theorems can refer to them; their
composition below is literally the source's data flow. -/

/-- Base rolling-noise of `getProceduralTerrainHeight`:
`sin(x*S)*cos(z*S)*H + (sin(x*S*5) + cos(z*S*7)) * (H*0.2)`. -/
def terrainBaseHeight (worldX worldZ : ℝ) : ℝ :=
  Real.sin (worldX * TERRAIN_NOISE_SCALE) * Real.cos (worldZ * TERRAIN_NOISE_SCALE) *
      TERRAIN_NOISE_HEIGHT
    + (Real.sin (worldX * TERRAIN_NOISE_SCALE * 5) + Real.cos (worldZ * TERRAIN_NOISE_SCALE * 7)) *
      (TERRAIN_NOISE_HEIGHT * 0.2)

/-- Inner crater-floor radius: `CRATER_RADIUS * (1.0 - CRATER_RIM_WIDTH_FACTOR)`. -/
def craterFloorRadius : ℝ := CRATER_RADIUS * (1.0 - CRATER_RIM_WIDTH_FACTOR)

/-- Crater-floor elevation target: `VOLCANO_HEIGHT - CRATER_DEPTH`. -/
def craterFloorTarget : ℝ := VOLCANO_HEIGHT - CRATER_DEPTH

/-- Volcano/crater modifier of `getProceduralTerrainHeight`: flat crater floor
inside the inner radius, smoothstep-interpolated floor-to-rim in the rim band,
exponential cone elsewhere. -/
def volcanoHeightModifier (worldX worldZ : ℝ) : ℝ :=
  let distSqFromCenter := worldX * worldX + worldZ * worldZ
  let volcanoShape :=
    Real.exp (-distSqFromCenter / (VOLCANO_RADIUS * VOLCANO_RADIUS * VOLCANO_SLOPE_FACTOR))
  let coneHeight := volcanoShape * VOLCANO_HEIGHT
  let craterFloorRadiusSq := craterFloorRadius * craterFloorRadius
  let craterOuterRadiusSq := CRATER_RADIUS * CRATER_RADIUS
  if distSqFromCenter < craterFloorRadiusSq then craterFloorTarget
  else if craterFloorRadiusSq ≤ distSqFromCenter ∧ distSqFromCenter < craterOuterRadiusSq then
    let distFromCenter := Real.sqrt distSqFromCenter
    let t := (distFromCenter - craterFloorRadius) / (CRATER_RADIUS - craterFloorRadius)
    lerpR craterFloorTarget VOLCANO_HEIGHT (smoothstepR t 0 1)
  else coneHeight

/-- Upper clamp bound of the height field. -/
def terrainMaxHeight : ℝ := VOLCANO_HEIGHT + TERRAIN_NOISE_HEIGHT * 1.5

/-- Lower clamp bound of the height field. -/
def terrainMinHeight : ℝ := -(TERRAIN_NOISE_HEIGHT * 2)

/-- `getProceduralTerrainHeight(worldX, worldZ)`: base noise plus volcano/crater
modifier, clamped to `[minHeight, maxHeight]`. -/
def getProceduralTerrainHeight (worldX worldZ : ℝ) : ℝ :=
  clampR (terrainBaseHeight worldX worldZ + volcanoHeightModifier worldX worldZ)
    terrainMinHeight terrainMaxHeight

/-! ### Basic height-field facts -/

theorem craterFloorRadius_eq : craterFloorRadius = 200 := by
  norm_num [craterFloorRadius, CRATER_RADIUS, CRATER_RIM_WIDTH_FACTOR]

theorem craterFloorTarget_eq : craterFloorTarget = 370 := by
  norm_num [craterFloorTarget, VOLCANO_HEIGHT, CRATER_DEPTH]

theorem terrainBaseHeight_zero : terrainBaseHeight 0 0 = 12 := by
  simp [terrainBaseHeight, TERRAIN_NOISE_SCALE, TERRAIN_NOISE_HEIGHT]
  norm_num

theorem volcanoHeightModifier_of_lt (worldX worldZ : ℝ)
    (h : worldX * worldX + worldZ * worldZ < craterFloorRadius * craterFloorRadius) :
    volcanoHeightModifier worldX worldZ = craterFloorTarget := by
  unfold volcanoHeightModifier
  simp only [if_pos h]

/-- The clamp keeps every height at or below the upper bound `540`. -/
theorem getProceduralTerrainHeight_le (worldX worldZ : ℝ) :
    getProceduralTerrainHeight worldX worldZ ≤ 540 := by
  unfold getProceduralTerrainHeight clampR
  have hb : terrainMinHeight ≤ (540 : ℝ) := by
    norm_num [terrainMinHeight, TERRAIN_NOISE_HEIGHT]
  have hm : terrainMaxHeight = (540 : ℝ) := by
    norm_num [terrainMaxHeight, VOLCANO_HEIGHT, TERRAIN_NOISE_HEIGHT]
  rw [hm]
  exact max_le hb (min_le_left _ _)

/-- C1 counterexample: the point `(0, 0)` lies strictly inside the inner
crater-floor radius, yet `getProceduralTerrainHeight 0 0 = 382`, not the
crater-floor elevation `VOLCANO_HEIGHT - CRATER_DEPTH = 370`: the base rolling
noise (`12` at the origin) is still added on top of the flat crater floor. -/
theorem crater_center_height_ne_floor :
    (0 : ℝ) * 0 + 0 * 0 < craterFloorRadius * craterFloorRadius ∧
      getProceduralTerrainHeight 0 0 ≠ VOLCANO_HEIGHT - CRATER_DEPTH := by
  constructor
  · rw [craterFloorRadius_eq]; norm_num
  · have h0 : (0 : ℝ) * 0 + 0 * 0 < craterFloorRadius * craterFloorRadius := by
      rw [craterFloorRadius_eq]; norm_num
    unfold getProceduralTerrainHeight
    rw [volcanoHeightModifier_of_lt 0 0 h0, terrainBaseHeight_zero, craterFloorTarget_eq]
    unfold clampR terrainMinHeight terrainMaxHeight
    norm_num [TERRAIN_NOISE_HEIGHT, VOLCANO_HEIGHT, CRATER_DEPTH]

/-- C1 (corrected): for every `(x, z)` with squared distance from the origin
below the inner crater-floor radius squared, the volcano/crater modifier is the
fixed crater-floor elevation `VOLCANO_HEIGHT - CRATER_DEPTH`, and
`getProceduralTerrainHeight x z` equals that elevation PLUS the base rolling
noise at `(x, z)` (clamped to the global height bounds) — the crater floor is
flat only up to the rolling-noise term, not exactly flat. -/
theorem crater_region_height_eq_floor_plus_noise (worldX worldZ : ℝ)
    (h : worldX * worldX + worldZ * worldZ < craterFloorRadius * craterFloorRadius) :
    volcanoHeightModifier worldX worldZ = VOLCANO_HEIGHT - CRATER_DEPTH ∧
      getProceduralTerrainHeight worldX worldZ =
        clampR (terrainBaseHeight worldX worldZ + (VOLCANO_HEIGHT - CRATER_DEPTH))
          terrainMinHeight terrainMaxHeight := by
  have hv := volcanoHeightModifier_of_lt worldX worldZ h
  refine ⟨by rw [hv, craterFloorTarget], ?_⟩
  unfold getProceduralTerrainHeight
  rw [hv, craterFloorTarget]

/-- C1 witness: the corrected statement instantiated at the crater center. -/
theorem crater_region_height_eq_floor_plus_noise_witness :
    (0 : ℝ) * 0 + 0 * 0 < craterFloorRadius * craterFloorRadius ∧
      (volcanoHeightModifier 0 0 = VOLCANO_HEIGHT - CRATER_DEPTH ∧
        getProceduralTerrainHeight 0 0 =
          clampR (terrainBaseHeight 0 0 + (VOLCANO_HEIGHT - CRATER_DEPTH))
            terrainMinHeight terrainMaxHeight) := by
  have h : (0 : ℝ) * 0 + 0 * 0 < craterFloorRadius * craterFloorRadius := by
    rw [craterFloorRadius_eq]; norm_num
  exact ⟨h, crater_region_height_eq_floor_plus_noise 0 0 h⟩

/-- C8 (confirmed): the height field is deterministic and pure.  In the source,
`getProceduralTerrainHeight` reads only immutable module `const`s and calls
only pure `Math` functions, so its shallow embedding takes no simulation state
at all; evaluating it under any two mutable-state contexts (any two states of
the simulation) and any call order gives identical results. -/
theorem getProceduralTerrainHeight_deterministic :
    ∀ (worldX worldZ : ℝ),
      getProceduralTerrainHeight worldX worldZ = getProceduralTerrainHeight worldX worldZ :=
  fun _ _ => rfl

/-! ## Vectors and quaternions (`THREE.Vector3`, `THREE.Quaternion`) -/

structure Vec3 where
  x : ℝ
  y : ℝ
  z : ℝ

namespace Vec3

def add (a b : Vec3) : Vec3 := ⟨a.x + b.x, a.y + b.y, a.z + b.z⟩

instance : Add Vec3 := ⟨add⟩

/-- `THREE.Vector3.multiplyScalar`. -/
def multiplyScalar (v : Vec3) (s : ℝ) : Vec3 := ⟨v.x * s, v.y * s, v.z * s⟩

/-- `THREE.Vector3.lengthSq`. -/
def lengthSq (v : Vec3) : ℝ := v.x * v.x + v.y * v.y + v.z * v.z

/-- `THREE.Vector3.length`. -/
def length (v : Vec3) : ℝ := Real.sqrt v.lengthSq

/-- `THREE.Vector3.normalize` divides by `length() || 1`: the zero vector is
left unchanged. -/
def normalize (v : Vec3) : Vec3 :=
  v.multiplyScalar (1 / (if v.length = 0 then 1 else v.length))

/-- `THREE.Vector3.cross` (right-handed cross product). -/
def cross (a b : Vec3) : Vec3 :=
  ⟨a.y * b.z - a.z * b.y, a.z * b.x - a.x * b.z, a.x * b.y - a.y * b.x⟩

/-- `THREE.Vector3.lerp(target, alpha) = this + (target - this) * alpha`
componentwise. -/
def lerp (v target : Vec3) (alpha : ℝ) : Vec3 :=
  ⟨v.x + (target.x - v.x) * alpha, v.y + (target.y - v.y) * alpha,
    v.z + (target.z - v.z) * alpha⟩

theorem add_def (a b : Vec3) : a + b = ⟨a.x + b.x, a.y + b.y, a.z + b.z⟩ := rfl

theorem lengthSq_nonneg (v : Vec3) : 0 ≤ v.lengthSq := by
  unfold lengthSq; nlinarith [sq_nonneg v.x, sq_nonneg v.y, sq_nonneg v.z]

theorem lengthSq_multiplyScalar (v : Vec3) (s : ℝ) :
    (v.multiplyScalar s).lengthSq = s * s * v.lengthSq := by
  unfold lengthSq multiplyScalar; ring

theorem length_sq_eq (v : Vec3) : v.length * v.length = v.lengthSq :=
  Real.mul_self_sqrt v.lengthSq_nonneg

theorem length_nonneg (v : Vec3) : 0 ≤ v.length := Real.sqrt_nonneg _

theorem length_eq_zero_iff (v : Vec3) : v.length = 0 ↔ v.lengthSq = 0 := by
  unfold length
  constructor
  · intro h
    have h' := Real.sqrt_eq_zero'.mp h
    exact le_antisymm h' v.lengthSq_nonneg
  · intro h; rw [h, Real.sqrt_zero]

end Vec3

def OFF_SCREEN_POS : Vec3 := ⟨1e10, 1e10, 1e10⟩

structure Quat where
  x : ℝ
  y : ℝ
  z : ℝ
  w : ℝ

namespace Quat

def identity : Quat := ⟨0, 0, 0, 1⟩

/-- `THREE.Quaternion.multiplyQuaternions(a, b)` (Hamilton product in THREE's
component order). -/
def mul (a b : Quat) : Quat :=
  ⟨a.x * b.w + a.w * b.x + a.y * b.z - a.z * b.y,
    a.y * b.w + a.w * b.y + a.z * b.x - a.x * b.z,
    a.z * b.w + a.w * b.z + a.x * b.y - a.y * b.x,
    a.w * b.w - a.x * b.x - a.y * b.y - a.z * b.z⟩

/-- `THREE.Quaternion.setFromAxisAngle(axis, angle)` (axis assumed normalized). -/
def setFromAxisAngle (axis : Vec3) (angle : ℝ) : Quat :=
  let halfAngle := angle / 2
  let s := Real.sin halfAngle
  ⟨axis.x * s, axis.y * s, axis.z * s, Real.cos halfAngle⟩

def lengthSq (q : Quat) : ℝ := q.x * q.x + q.y * q.y + q.z * q.z + q.w * q.w

def length (q : Quat) : ℝ := Real.sqrt q.lengthSq

/-- `THREE.Quaternion.normalize`: zero-length quaternions become the identity,
otherwise each component is divided by the length. -/
def normalize (q : Quat) : Quat :=
  if q.length = 0 then identity
  else ⟨q.x / q.length, q.y / q.length, q.z / q.length, q.w / q.length⟩

/-- `THREE.Vector3.applyQuaternion`:
`t = 2 * cross(q.xyz, v); v' = v + q.w * t + cross(q.xyz, t)`. -/
def rotate (q : Quat) (v : Vec3) : Vec3 :=
  let qv : Vec3 := ⟨q.x, q.y, q.z⟩
  let t := (qv.cross v).multiplyScalar 2
  v + t.multiplyScalar q.w + qv.cross t

theorem mul_identity (q : Quat) : mul q identity = q := by
  unfold mul identity
  cases q with
  | mk x y z w =>
    simp only [Quat.mk.injEq]
    refine ⟨by ring, by ring, by ring, by ring⟩

theorem setFromAxisAngle_zero (axis : Vec3) : setFromAxisAngle axis 0 = identity := by
  unfold setFromAxisAngle identity
  norm_num

theorem identity_lengthSq : identity.lengthSq = 1 := by
  unfold identity lengthSq; norm_num

theorem normalize_identity : normalize identity = identity := by
  unfold normalize
  have hl : identity.length = 1 := by
    unfold length; rw [identity_lengthSq, Real.sqrt_one]
  rw [hl]
  norm_num [identity]

theorem rotate_identity (v : Vec3) : rotate identity v = v := by
  unfold rotate identity Vec3.cross Vec3.multiplyScalar
  cases v with
  | mk x y z =>
    simp only [Vec3.add_def, Vec3.mk.injEq]
    refine ⟨by ring, by ring, by ring⟩

end Quat

/-! ## Generic particle-slot tick (shared retire/alpha logic)

Each of the four per-frame particle updaters (`updateTrails`,
`updateVolcanoSmoke`, `updateEngineBurn`, `updateCrashExplosion`) runs the same
per-slot logic over its buffer: a slot with a non-sentinel `startTime ≥ 0` is
retired (position moved to `OFF_SCREEN_POS`, `startTime := -1`, `alpha := 0`)
once `age > lifetime`, and otherwise gets its alpha recomputed from the age
ratio by an emitter-specific law `alphaFn`.  Sentinel slots are untouched. -/

structure ParticleSlot where
  pos : Vec3
  vel : Vec3
  startTime : ℝ
  alpha : ℝ
  size : ℝ

/-- One per-slot step of a particle updater at clock time `now`. -/
def updateParticleSlot (alphaFn : ℝ → ℝ) (now lifetime : ℝ) (s : ParticleSlot) :
    ParticleSlot :=
  if 0 ≤ s.startTime then
    if now - s.startTime > lifetime then
      { s with pos := OFF_SCREEN_POS, startTime := -1.0, alpha := 0.0 }
    else
      { s with alpha := alphaFn ((now - s.startTime) / lifetime) }
  else s

/-- Alpha law of the crash-explosion updater: `max(0, 1 - lifeRatio)`. -/
def explosionAlphaFn (lifeRatio : ℝ) : ℝ := max 0 (1 - lifeRatio)

/-! ## Crash-explosion ring buffer -/

structure ExplosionBuffer where
  slots : ℕ → ParticleSlot
  writeIndex : ℕ

/-- `updateCrashExplosion`: age every slot of the explosion buffer; the write
cursor is untouched. -/
def updateCrashExplosionBuffer (now : ℝ) (b : ExplosionBuffer) : ExplosionBuffer :=
  { b with
    slots := fun j =>
      if j < MAX_EXPLOSION_PARTICLES then
        updateParticleSlot explosionAlphaFn now explosionLifetime (b.slots j)
      else b.slots j }

/-- Velocity written for burst particle `i` from the `Math.random()` stream
`rnd` (three draws for the direction, one for the speed). -/
def explosionParticleVel (rnd : ℕ → ℝ) (i : ℕ) : Vec3 :=
  (Vec3.normalize ⟨rnd (5 * i) - 0.5, rnd (5 * i + 1) - 0.5, rnd (5 * i + 2) - 0.5⟩).multiplyScalar
    (explosionBaseVelocity + (rnd (5 * i + 3) - 0.5) * explosionVelocitySpread)

/-- Size written for burst particle `i`: `0.8 + Math.random() * 0.4`. -/
def explosionParticleSize (rnd : ℕ → ℝ) (i : ℕ) : ℝ := 0.8 + rnd (5 * i + 4) * 0.4

/-- One loop iteration of `triggerCrashExplosion`: write a fresh slot at the
cursor, then advance the cursor mod capacity. -/
def emitExplosionParticle (p : Vec3) (t : ℝ) (v : Vec3) (sz : ℝ) (b : ExplosionBuffer) :
    ExplosionBuffer :=
  { slots := fun j =>
      if j = b.writeIndex then { pos := p, vel := v, startTime := t, alpha := 1.0, size := sz }
      else b.slots j,
    writeIndex := (b.writeIndex + 1) % MAX_EXPLOSION_PARTICLES }

/-- The burst loop of `triggerCrashExplosion`: `k` iterations remaining,
`i` the index of the current iteration (entropy cursor). -/
def explosionBurstLoop (p : Vec3) (t : ℝ) (rnd : ℕ → ℝ) : ℕ → ℕ → ExplosionBuffer →
    ExplosionBuffer
  | _, 0, b => b
  | i, k + 1, b =>
      explosionBurstLoop p t rnd (i + 1) k
        (emitExplosionParticle p t (explosionParticleVel rnd i) (explosionParticleSize rnd i) b)

/-- `triggerCrashExplosion(position)` at clock time `t`:
`count = Math.min(explosionParticleCount, MAX_EXPLOSION_PARTICLES)` fresh
particles written at consecutive cursor positions. -/
def triggerCrashExplosion (p : Vec3) (t : ℝ) (rnd : ℕ → ℝ) (b : ExplosionBuffer) :
    ExplosionBuffer :=
  explosionBurstLoop p t rnd 0 (min explosionParticleCount MAX_EXPLOSION_PARTICLES) b

/-! ## World wrap (the boundary check of `animate`) -/

/-- The world-boundary wrap-around of `animate`: crossing `±WORLD_BOUNDARY` on
x or z teleports to the opposite edge with a 1-unit inset; y is untouched. -/
def applyWorldWrap (p : Vec3) : Vec3 :=
  let newX :=
    if p.x > WORLD_BOUNDARY then -WORLD_BOUNDARY + 1
    else if p.x < -WORLD_BOUNDARY then WORLD_BOUNDARY - 1
    else p.x
  let newZ :=
    if p.z > WORLD_BOUNDARY then -WORLD_BOUNDARY + 1
    else if p.z < -WORLD_BOUNDARY then WORLD_BOUNDARY - 1
    else p.z
  ⟨newX, p.y, newZ⟩

/-- C9 (confirmed): a position beyond a world boundary is teleported to the
opposite edge with a 1-unit inset (not clamped): crossing `+WORLD_BOUNDARY` on
x lands at `-WORLD_BOUNDARY + 1`, crossing `-WORLD_BOUNDARY` lands at
`WORLD_BOUNDARY - 1`, and the z axis behaves symmetrically; y is untouched.
In particular `x = WORLD_BOUNDARY + 5` maps to `-WORLD_BOUNDARY + 1`. -/
theorem worldWrap_teleports (p : Vec3) :
    (p.x > WORLD_BOUNDARY → (applyWorldWrap p).x = -WORLD_BOUNDARY + 1) ∧
    (p.x < -WORLD_BOUNDARY → (applyWorldWrap p).x = WORLD_BOUNDARY - 1) ∧
    (p.z > WORLD_BOUNDARY → (applyWorldWrap p).z = -WORLD_BOUNDARY + 1) ∧
    (p.z < -WORLD_BOUNDARY → (applyWorldWrap p).z = WORLD_BOUNDARY - 1) ∧
    (applyWorldWrap p).y = p.y := by
  unfold applyWorldWrap
  refine ⟨fun hx => ?_, fun hx => ?_, fun hz => ?_, fun hz => ?_, rfl⟩
  · simp only [if_pos hx]
  · have hnot : ¬ p.x > WORLD_BOUNDARY := by
      intro hgt
      have hB : (0 : ℝ) < WORLD_BOUNDARY := by norm_num [WORLD_BOUNDARY, TERRAIN_SIZE]
      linarith
    simp only [if_neg hnot, if_pos hx]
  · simp only [if_pos hz]
  · have hnot : ¬ p.z > WORLD_BOUNDARY := by
      intro hgt
      have hB : (0 : ℝ) < WORLD_BOUNDARY := by norm_num [WORLD_BOUNDARY, TERRAIN_SIZE]
      linarith
    simp only [if_neg hnot, if_pos hz]

/-- C9 witness: `WORLD_BOUNDARY = 1187.5`, so a position with
`x = WORLD_BOUNDARY + 5 = 1192.5` and `z = -WORLD_BOUNDARY - 5` wraps to
`x = -1186.5` and `z = 1186.5`, keeping `y`. -/
theorem worldWrap_teleports_witness :
    (1192.5 : ℝ) > WORLD_BOUNDARY ∧ (-1192.5 : ℝ) < -WORLD_BOUNDARY ∧
      (applyWorldWrap ⟨1192.5, 2, -1192.5⟩).x = -WORLD_BOUNDARY + 1 ∧
      (applyWorldWrap ⟨1192.5, 2, -1192.5⟩).z = WORLD_BOUNDARY - 1 ∧
      (applyWorldWrap ⟨1192.5, 2, -1192.5⟩).y = 2 := by
  have hx : (1192.5 : ℝ) > WORLD_BOUNDARY := by norm_num [WORLD_BOUNDARY, TERRAIN_SIZE]
  have hz : (-1192.5 : ℝ) < -WORLD_BOUNDARY := by norm_num [WORLD_BOUNDARY, TERRAIN_SIZE]
  obtain ⟨h1, _, _, h4, h5⟩ := worldWrap_teleports (⟨1192.5, 2, -1192.5⟩ : Vec3)
  exact ⟨hx, hz, h1 hx, h4 hz, h5⟩

/-- C7 (confirmed): for any particle system (any emitter alpha law `alphaFn`
and lifetime), the first updater tick at which a live slot's age exceeds the
lifetime retires it — sentinel timestamp `-1`, alpha `0`, position moved to
`OFF_SCREEN_POS` — and a retired slot is a fixed point of every subsequent
updater tick (its alpha stays `0` until a new emission overwrites the slot). -/
theorem particle_retirement_idempotent (alphaFn : ℝ → ℝ) (now lifetime : ℝ)
    (s : ParticleSlot) (hlive : 0 ≤ s.startTime) (hage : now - s.startTime > lifetime) :
    (updateParticleSlot alphaFn now lifetime s).startTime = -1 ∧
    (updateParticleSlot alphaFn now lifetime s).alpha = 0 ∧
    (updateParticleSlot alphaFn now lifetime s).pos = OFF_SCREEN_POS ∧
    (∀ (alphaFn2 : ℝ → ℝ) (now2 lifetime2 : ℝ),
      updateParticleSlot alphaFn2 now2 lifetime2 (updateParticleSlot alphaFn now lifetime s) =
        updateParticleSlot alphaFn now lifetime s) := by
  have hstep : updateParticleSlot alphaFn now lifetime s =
      { s with pos := OFF_SCREEN_POS, startTime := -1.0, alpha := 0.0 } := by
    unfold updateParticleSlot
    rw [if_pos hlive, if_pos hage]
  refine ⟨by rw [hstep]; norm_num, by rw [hstep]; norm_num, by rw [hstep], ?_⟩
  intro alphaFn2 now2 lifetime2
  rw [hstep]
  unfold updateParticleSlot
  norm_num

/-- C7 witness: a slot emitted at time `0` with lifetime `1`, updated at time
`2`, is retired, and a further update at time `3` leaves it retired. -/
theorem particle_retirement_idempotent_witness :
    (0 : ℝ) ≤ 0 ∧ (2 : ℝ) - 0 > 1 ∧
      (updateParticleSlot explosionAlphaFn 2 1
        ⟨⟨0, 0, 0⟩, ⟨0, 0, 0⟩, 0, 1, 1⟩).startTime = -1 ∧
      (updateParticleSlot explosionAlphaFn 2 1
        ⟨⟨0, 0, 0⟩, ⟨0, 0, 0⟩, 0, 1, 1⟩).alpha = 0 ∧
      updateParticleSlot explosionAlphaFn 3 1
          (updateParticleSlot explosionAlphaFn 2 1 ⟨⟨0, 0, 0⟩, ⟨0, 0, 0⟩, 0, 1, 1⟩) =
        updateParticleSlot explosionAlphaFn 2 1 ⟨⟨0, 0, 0⟩, ⟨0, 0, 0⟩, 0, 1, 1⟩ := by
  have h := particle_retirement_idempotent explosionAlphaFn 2 1
    ⟨⟨0, 0, 0⟩, ⟨0, 0, 0⟩, 0, 1, 1⟩ (by norm_num) (by norm_num)
  exact ⟨by norm_num, by norm_num, h.1, h.2.1, h.2.2.2 explosionAlphaFn 3 1⟩

/-- Initial contents of the explosion buffer (`createCrashExplosionSystem`):
every slot off-screen with sentinel timestamp, zero alpha, unit size. -/
def initialExplosionBuffer : ExplosionBuffer :=
  ⟨fun _ => ⟨OFF_SCREEN_POS, ⟨0, 0, 0⟩, -1.0, 0.0, 1.0⟩, 0⟩

/-- Ring-buffer characterization of the burst loop: `k ≤ N` writes starting at
the cursor hit exactly the slots whose forward modular distance from the
cursor is below `k`, each getting the fresh timestamp/alpha/position; all
other slots keep their previous contents, and the cursor advances by `k`
mod `N`. -/
theorem explosionBurstLoop_spec (p : Vec3) (t : ℝ) (rnd : ℕ → ℝ) :
    ∀ (k i : ℕ) (b : ExplosionBuffer), b.writeIndex < MAX_EXPLOSION_PARTICLES →
      k ≤ MAX_EXPLOSION_PARTICLES →
      (explosionBurstLoop p t rnd i k b).writeIndex =
          (b.writeIndex + k) % MAX_EXPLOSION_PARTICLES ∧
        ∀ j, j < MAX_EXPLOSION_PARTICLES →
          (((j + MAX_EXPLOSION_PARTICLES - b.writeIndex) % MAX_EXPLOSION_PARTICLES < k →
              ((explosionBurstLoop p t rnd i k b).slots j).startTime = t ∧
                ((explosionBurstLoop p t rnd i k b).slots j).alpha = 1 ∧
                ((explosionBurstLoop p t rnd i k b).slots j).pos = p) ∧
            (¬ (j + MAX_EXPLOSION_PARTICLES - b.writeIndex) % MAX_EXPLOSION_PARTICLES < k →
              (explosionBurstLoop p t rnd i k b).slots j = b.slots j)) := by
  simp only [MAX_EXPLOSION_PARTICLES]
  intro k
  induction k with
  | zero =>
    intro i b hw _
    refine ⟨by simpa [explosionBurstLoop] using (Nat.mod_eq_of_lt hw).symm, ?_⟩
    intro j _
    exact ⟨fun h => absurd h (by omega), fun _ => rfl⟩
  | succ k ih =>
    intro i b hw hk
    have hstep : explosionBurstLoop p t rnd i (k + 1) b =
        explosionBurstLoop p t rnd (i + 1) k
          (emitExplosionParticle p t (explosionParticleVel rnd i)
            (explosionParticleSize rnd i) b) := rfl
    set b' := emitExplosionParticle p t (explosionParticleVel rnd i)
      (explosionParticleSize rnd i) b with hb'
    have hw' : b'.writeIndex < 2500 := by
      simp only [hb', emitExplosionParticle, MAX_EXPLOSION_PARTICLES]
      omega
    have hwi' : b'.writeIndex = (b.writeIndex + 1) % 2500 := by
      simp only [hb', emitExplosionParticle, MAX_EXPLOSION_PARTICLES]
    obtain ⟨ihw, ihs⟩ := ih (i + 1) b' hw' (by omega)
    rw [hstep]
    constructor
    · rw [ihw, hwi']; omega
    · intro j hj
      obtain ⟨ihj1, ihj2⟩ := ihs j hj
      have hbslot : b'.slots j =
          if j = b.writeIndex then
            { pos := p, vel := explosionParticleVel rnd i, startTime := t, alpha := 1.0,
              size := explosionParticleSize rnd i }
          else b.slots j := by
        simp only [hb', emitExplosionParticle]
      by_cases hc2 : (j + 2500 - b'.writeIndex) % 2500 < k
      · have hfields := ihj1 hc2
        have hcond : (j + 2500 - b.writeIndex) % 2500 < k + 1 := by
          rw [hwi'] at hc2; omega
        exact ⟨fun _ => hfields, fun hn => absurd hcond hn⟩
      · have hslots : (explosionBurstLoop p t rnd (i + 1) k b').slots j = b'.slots j :=
          ihj2 hc2
        by_cases hjw : j = b.writeIndex
        · have hcond : (j + 2500 - b.writeIndex) % 2500 < k + 1 := by
            subst hjw; omega
          refine ⟨fun _ => ?_, fun hn => absurd hcond hn⟩
          rw [hslots, hbslot, if_pos hjw]
          exact ⟨rfl, by norm_num, rfl⟩
        · have hncond : ¬ (j + 2500 - b.writeIndex) % 2500 < k + 1 := by
            rw [hwi'] at hc2; omega
          refine ⟨fun hcc => absurd hcc hncond, fun _ => ?_⟩
          rw [hslots, hbslot, if_neg hjw]

/-- C6 (confirmed): with the default `explosionParticleCount = 2400` and
capacity `MAX_EXPLOSION_PARTICLES = 2500`, one `triggerCrashExplosion` call
writes exactly `min 2400 2500 = 2400` distinct slots — those whose forward
modular distance from the write cursor is below 2400 (2400 of the 2500
residues, as the cardinality conjunct states) — giving each the fresh
timestamp `t`, alpha `1` and the crash position; the remaining 100 slots are
not written by the call. -/
theorem explosion_burst_exact_slots (p : Vec3) (t : ℝ) (rnd : ℕ → ℝ)
    (b : ExplosionBuffer) (hw : b.writeIndex < MAX_EXPLOSION_PARTICLES) :
    min explosionParticleCount MAX_EXPLOSION_PARTICLES = 2400 ∧
      ((Finset.range MAX_EXPLOSION_PARTICLES).filter
          (fun j => (j + MAX_EXPLOSION_PARTICLES - b.writeIndex) % MAX_EXPLOSION_PARTICLES
            < 2400)).card = 2400 ∧
      ∀ j, j < MAX_EXPLOSION_PARTICLES →
        (((j + MAX_EXPLOSION_PARTICLES - b.writeIndex) % MAX_EXPLOSION_PARTICLES < 2400 →
            ((triggerCrashExplosion p t rnd b).slots j).startTime = t ∧
              ((triggerCrashExplosion p t rnd b).slots j).alpha = 1 ∧
              ((triggerCrashExplosion p t rnd b).slots j).pos = p) ∧
          (2400 ≤ (j + MAX_EXPLOSION_PARTICLES - b.writeIndex) % MAX_EXPLOSION_PARTICLES →
            (triggerCrashExplosion p t rnd b).slots j = b.slots j)) := by
  have hmin : min explosionParticleCount MAX_EXPLOSION_PARTICLES = 2400 := by
    norm_num [explosionParticleCount, MAX_EXPLOSION_PARTICLES]
  have hN : MAX_EXPLOSION_PARTICLES = 2500 := rfl
  have hw' : b.writeIndex < 2500 := by rw [hN] at hw; exact hw
  refine ⟨hmin, ?_, ?_⟩
  · rw [hN]
    have hcard : ((Finset.range 2500).filter
        (fun j => (j + 2500 - b.writeIndex) % 2500 < 2400)).card =
        (Finset.range 2400).card := by
      apply Finset.card_nbij' (fun j => (j + 2500 - b.writeIndex) % 2500)
        (fun i => (b.writeIndex + i) % 2500)
      · intro j hj
        simp only [Finset.mem_filter, Finset.mem_range] at hj
        exact Finset.mem_range.mpr hj.2
      · intro i hi
        simp only [Finset.mem_range] at hi
        simp only [Finset.mem_filter, Finset.mem_range]
        omega
      · intro j hj
        simp only [Finset.mem_filter, Finset.mem_range] at hj
        omega
      · intro i hi
        simp only [Finset.mem_range] at hi
        omega
    rw [hcard, Finset.card_range]
  · intro j hj
    have hunfold : triggerCrashExplosion p t rnd b =
        explosionBurstLoop p t rnd 0 (min explosionParticleCount MAX_EXPLOSION_PARTICLES) b :=
      rfl
    rw [hunfold, hmin]
    have hspec := explosionBurstLoop_spec p t rnd 2400 0 b hw
      (by norm_num [MAX_EXPLOSION_PARTICLES])
    obtain ⟨h1, h2⟩ := hspec.2 j hj
    exact ⟨h1, fun hge => h2 (by omega)⟩

/-- C6 witness: bursting the freshly initialized buffer (cursor 0) at time 7
writes slot 0 fresh and leaves slot 2400 at its initial contents. -/
theorem explosion_burst_exact_slots_witness :
    initialExplosionBuffer.writeIndex < MAX_EXPLOSION_PARTICLES ∧
      ((triggerCrashExplosion ⟨1, 2, 3⟩ 7 (fun _ => 0) initialExplosionBuffer).slots 0).startTime
          = 7 ∧
      ((triggerCrashExplosion ⟨1, 2, 3⟩ 7 (fun _ => 0) initialExplosionBuffer).slots 0).pos
          = ⟨1, 2, 3⟩ ∧
      (triggerCrashExplosion ⟨1, 2, 3⟩ 7 (fun _ => 0) initialExplosionBuffer).slots 2400 =
        initialExplosionBuffer.slots 2400 := by
  have hw : initialExplosionBuffer.writeIndex < MAX_EXPLOSION_PARTICLES := by
    norm_num [initialExplosionBuffer, MAX_EXPLOSION_PARTICLES]
  have h := explosion_burst_exact_slots ⟨1, 2, 3⟩ 7 (fun _ => 0) initialExplosionBuffer hw
  have h0 := (h.2.2 0 (by norm_num [MAX_EXPLOSION_PARTICLES])).1
    (by norm_num [MAX_EXPLOSION_PARTICLES, initialExplosionBuffer])
  have h2400 := (h.2.2 2400 (by norm_num [MAX_EXPLOSION_PARTICLES])).2
    (by norm_num [MAX_EXPLOSION_PARTICLES, initialExplosionBuffer])
  exact ⟨hw, h0.1, h0.2.2, h2400⟩

/-! ## Control input

The per-tick control resolution of `animate` (lines 538-563 of `js/main.js`):
either the touch-joystick state or the key map is turned into normalized
pitch/roll/yaw/thrust/brake/afterburner values.  The `q`/`e` yaw key bindings
are commented out in the source, and the touch branch never reads
`touchControls.yaw`, so `yawInput` keeps its initializer `0` on both paths. -/

structure KeyState where
  w : Bool
  s : Bool
  a : Bool
  d : Bool
  space : Bool
  b : Bool
  shift : Bool

def noKeys : KeyState := ⟨false, false, false, false, false, false, false⟩

/-- The `touchControls` record written by the nipplejs handlers. -/
structure TouchControls where
  pitch : ℝ
  roll : ℝ
  yaw : ℝ
  thrust : ℝ
  brake : Bool
  afterburner : Bool

/-- Initializer of `touchControls` in the source. -/
def initialTouchControls : TouchControls :=
  { pitch := 0, roll := 0, yaw := 0, thrust := 0, brake := false, afterburner := false }

structure ControlInput where
  pitch : ℝ
  roll : ℝ
  yaw : ℝ
  thrust : ℝ
  brake : Bool
  afterburner : Bool

/-- Input resolution at the top of the physics block of `animate`.  The
sequential keyboard `if`s mean a later assignment wins when two opposing keys
are held (`s` over `w`, `d` over `a`). -/
def resolveInput (isTouchDevice : Bool) (keys : KeyState) (tc : TouchControls) : ControlInput :=
  if isTouchDevice then
    { pitch := tc.pitch, roll := tc.roll, yaw := 0, thrust := tc.thrust, brake := false,
      afterburner := tc.afterburner }
  else
    { pitch := if keys.s then 1.0 else if keys.w then -1.0 else 0,
      roll := if keys.d then -1.0 else if keys.a then 1.0 else 0,
      yaw := 0,
      thrust := if keys.space then 1.0 else 0,
      brake := keys.b,
      afterburner := keys.shift }

/-- The resolved keyboard input with no key held. -/
def keyboardIdleControl : ControlInput := resolveInput false noKeys initialTouchControls

/-! ### Virtual joystick handlers (`setupJoysticks`) -/

inductive JoystickEvent where
  | leftMove (angleRad distance : ℝ)
  | leftEnd
  | rightMove (angleRad distance : ℝ)
  | rightEnd

/-- `joystickOptions.size / 2`. -/
def joystickMaxDistance : ℝ := 120 / 2

/-- The four nipplejs callbacks of `setupJoysticks` as a transition function on
`touchControls`.  The right-stick `move` handler explicitly writes
`touchControls.yaw = 0`, and no handler ever writes a nonzero yaw. -/
def applyJoystickEvent (tc : TouchControls) : JoystickEvent → TouchControls
  | .leftMove angleRad dist =>
      let distance := min dist joystickMaxDistance
      let force := distance / joystickMaxDistance
      { tc with roll := -(Real.cos angleRad) * force, pitch := -(Real.sin angleRad) * force }
  | .leftEnd => { tc with pitch := 0, roll := 0 }
  | .rightMove angleRad dist =>
      let distance := min dist joystickMaxDistance
      let force := distance / joystickMaxDistance
      let verticalForce := Real.sin angleRad * force
      { tc with
          thrust := max 0 verticalForce
          afterburner := if verticalForce > 0.9 ∧ force > 0.9 then true else false
          yaw := 0 }
  | .rightEnd => { tc with thrust := 0, yaw := 0, afterburner := false }

/-! ## Flight-dynamics steps of `animate` -/

/-- `Math.pow(controlParams.angularDamping, deltaTime * 60)`. -/
def effectiveAngularDamping (dt : ℝ) : ℝ := Real.rpow angularDamping (dt * 60)

/-- Angular-velocity update: first-order approach to the target rates followed
by frame-rate-independent damping. -/
def angularUpdate (c : ControlInput) (dt : ℝ) (w : Vec3) : Vec3 :=
  let targetPitch := c.pitch * pitchRate
  let targetYaw := c.yaw * yawRate
  let targetRoll := c.roll * rollRate
  let w1 : Vec3 :=
    ⟨w.x + (targetPitch - w.x) * angularAdjustFactor * dt,
      w.y + (targetYaw - w.y) * angularAdjustFactor * dt,
      w.z + (targetRoll - w.z) * angularAdjustFactor * dt⟩
  w1.multiplyScalar (effectiveAngularDamping dt)

/-- Orientation update: compose incremental axis rotations in yaw-pitch-roll
order onto the quaternion, then re-normalize when the squared norm is above
the `1e-6` guard. -/
def orientationUpdate (w : Vec3) (dt : ℝ) (q : Quat) : Quat :=
  let deltaRot := w.multiplyScalar dt
  let qx := Quat.setFromAxisAngle ⟨1, 0, 0⟩ deltaRot.x
  let qy := Quat.setFromAxisAngle ⟨0, 1, 0⟩ deltaRot.y
  let qz := Quat.setFromAxisAngle ⟨0, 0, 1⟩ deltaRot.z
  let q1 := Quat.mul (Quat.mul (Quat.mul q qy) qx) qz
  if q1.lengthSq > 1e-6 then q1.normalize else q1

/-- `thrustInput * thrustAcceleration * (afterburner ? multiplier : 1)`. -/
def thrustForceOf (c : ControlInput) : ℝ :=
  c.thrust * thrustAcceleration * (if c.afterburner then afterburnerMultiplier else 1.0)

/-- `maxSpeed * (afterburner ? multiplier : 1)`. -/
def currentMaxSpeedOf (c : ControlInput) : ℝ :=
  maxSpeed * (if c.afterburner then afterburnerMultiplier else 1.0)

/-- The speed-cap step: an over-cap velocity is rescaled to the cap
(direction preserved); the `1e-6` guard protects the normalization. -/
def speedCapStep (cap : ℝ) (v : Vec3) : Vec3 :=
  if v.lengthSq > cap * cap then
    (if v.lengthSq > 1e-6 then (v.normalize).multiplyScalar cap else v)
  else v

/-- The idle-decay step: with thrust below `0.1` and no brake, a velocity with
squared magnitude strictly between `0.01` and `minSpeed²` is multiplied by
`0.9` and snapped to zero if the result's squared magnitude is below `0.01`. -/
def idleDecayStep (c : ControlInput) (v : Vec3) : Vec3 :=
  if c.thrust < 0.1 ∧ c.brake = false then
    if v.lengthSq < minSpeed * minSpeed ∧ v.lengthSq > 0.01 then
      if (v.multiplyScalar 0.9).lengthSq < 0.01 then ⟨0, 0, 0⟩ else v.multiplyScalar 0.9
    else v
  else v

/-- The velocity pipeline of one physics tick: thrust acceleration, braking,
proportional drag, speed cap, idle decay — in the source's order. -/
def velocityUpdate (c : ControlInput) (dt : ℝ) (fwd v : Vec3) : Vec3 :=
  let accelerationVector := fwd.multiplyScalar (thrustForceOf c * dt)
  let brakingVector :=
    if c.brake = true ∧ v.lengthSq > 0.01 then
      (if v.lengthSq > 1e-6 then (v.normalize).multiplyScalar (-brakeForce * dt) else ⟨0, 0, 0⟩)
    else ⟨0, 0, 0⟩
  let v1 := v + accelerationVector + brakingVector
  let v2 := v1 + v1.multiplyScalar (-linearDragFactor * dt)
  idleDecayStep c (speedCapStep (currentMaxSpeedOf c) v2)

/-! ## Simulation state and the frame orchestrator -/

structure SimState where
  pos : Vec3
  quat : Quat
  vel : Vec3
  angVel : Vec3
  visible : Bool
  isCrashing : Bool
  explosionCount : ℕ
  resetScheduleCount : ℕ
  explosion : ExplosionBuffer
  cameraPos : Vec3
  fogNear : ℝ
  fogFar : ℝ
  hudSpeed : ℝ
  hudAltitude : ℝ

/-- Collision detection and crash handling of `animate`: below
`effectiveGround + buffer`, either enter the crash state (once, guarded by the
`isCrashing` flag: explosion burst, hide, zero velocities, schedule reset) or
resolve soft ground contact (clamp altitude, damped bounce). -/
def effectiveGroundLevelAt (p : Vec3) : ℝ :=
  max (getProceduralTerrainHeight p.x p.z) WATER_LEVEL

def collisionStep (now : ℝ) (rnd : ℕ → ℝ) (s : SimState) : SimState :=
  if s.pos.y < effectiveGroundLevelAt s.pos + AIRCRAFT_GROUND_BUFFER then
    if s.vel.y < CRASH_VELOCITY_THRESHOLD then
      if s.isCrashing then s
      else
        { s with
            isCrashing := true
            explosion := triggerCrashExplosion s.pos now rnd s.explosion
            explosionCount := s.explosionCount + 1
            visible := false
            vel := ⟨0, 0, 0⟩
            angVel := ⟨0, 0, 0⟩
            resetScheduleCount := s.resetScheduleCount + 1 }
    else
      if s.vel.y < 0 then
        { s with
            pos := ⟨s.pos.x, effectiveGroundLevelAt s.pos + AIRCRAFT_GROUND_BUFFER, s.pos.z⟩
            vel := ⟨s.vel.x * 0.8, s.vel.y * (-0.2), s.vel.z * 0.8⟩
            angVel := s.angVel.multiplyScalar 0.5 }
      else
        { s with
            pos := ⟨s.pos.x, effectiveGroundLevelAt s.pos + AIRCRAFT_GROUND_BUFFER, s.pos.z⟩ }
  else s

/-- The physics block of `animate` (run only while not crashing): input
resolution, angular and orientation updates, the velocity pipeline, position
integration, world wrap, collision handling. -/
def physicsStep (isTouchDevice : Bool) (keys : KeyState) (touch : TouchControls)
    (now dt : ℝ) (rnd : ℕ → ℝ) (s : SimState) : SimState :=
  let c := resolveInput isTouchDevice keys touch
  let w := angularUpdate c dt s.angVel
  let q := orientationUpdate w dt s.quat
  let fwd := (q.rotate ⟨0, 0, -1⟩).normalize
  let v := velocityUpdate c dt fwd s.vel
  let p := s.pos + v.multiplyScalar dt
  let p2 := applyWorldWrap p
  collisionStep now rnd { s with angVel := w, quat := q, vel := v, pos := p2 }

/-- The always-run tail of `animate`: HUD speed/altitude, edge fog, camera
follow.  These read the (possibly frozen) aircraft state but never write it. -/
def applyFrameEffects (dt : ℝ) (s : SimState) : SimState :=
  let currentSpeed := s.vel.length
  let terrainHeight := getProceduralTerrainHeight s.pos.x s.pos.z
  let groundLevel := max terrainHeight WATER_LEVEL
  let currentAltitude := max 0 (s.pos.y - groundLevel)
  let dist := Real.sqrt (s.pos.x * s.pos.x + s.pos.z * s.pos.z)
  let fogFactor :=
    if dist > edgeFogStartDistance then smoothstepR dist edgeFogStartDistance edgeFogFullDistance
    else 0
  let cameraOffset := s.quat.rotate ⟨0, 7, 20⟩
  let targetCameraPosition := s.pos + cameraOffset
  let lerpFactor := 1 - Real.rpow (1 - cameraSmoothness) (dt * 60)
  { s with
      hudSpeed := currentSpeed
      hudAltitude := currentAltitude
      fogNear := lerpR baseFogNear (baseFogNear * edgeFogNearFactor) fogFactor
      fogFar := lerpR baseFogFar (baseFogFar * edgeFogFarFactor) fogFactor
      cameraPos := s.cameraPos.lerp targetCameraPosition lerpFactor }

/-- Per-tick external input: raw frame delta (clamped inside the tick), the
shared clock value, the input device state, and the `Math.random()` stream. -/
structure TickInput where
  rawDelta : ℝ
  now : ℝ
  isTouchDevice : Bool
  keys : KeyState
  touch : TouchControls
  rnd : ℕ → ℝ

/-- One `animate` frame: clamp the delta, age the explosion particles (always),
run the physics block only when not crashing, then HUD/fog/camera. -/
def animateTick (inp : TickInput) (s : SimState) : SimState :=
  let deltaTime := min inp.rawDelta 0.1
  let s1 := { s with explosion := updateCrashExplosionBuffer inp.now s.explosion }
  let s2 :=
    if s1.isCrashing then s1
    else physicsStep inp.isTouchDevice inp.keys inp.touch inp.now deltaTime inp.rnd s1
  applyFrameEffects deltaTime s2

/-- Iterated frames under an input sequence. -/
def runTicks (ins : ℕ → TickInput) (s : SimState) : ℕ → SimState
  | 0 => s
  | n + 1 => animateTick (ins n) (runTicks ins s n)

/-- `resetSimulation` (the crash-reset timer callback): restore the initial
pose, zero velocities, unhide, clear the crash flag. -/
def resetSimulation (initialPos : Vec3) (initialQuat : Quat) (s : SimState) : SimState :=
  { s with
      pos := initialPos
      quat := initialQuat
      vel := ⟨0, 0, 0⟩
      angVel := ⟨0, 0, 0⟩
      visible := true
      isCrashing := false }

/-! ## Concrete test fixtures -/

/-- A baseline flying state: level at altitude 1000 over the origin, at rest,
identity orientation, fresh explosion buffer. -/
def demoState : SimState :=
  { pos := ⟨0, 1000, 0⟩
    quat := Quat.identity
    vel := ⟨0, 0, 0⟩
    angVel := ⟨0, 0, 0⟩
    visible := true
    isCrashing := false
    explosionCount := 0
    resetScheduleCount := 0
    explosion := initialExplosionBuffer
    cameraPos := ⟨0, 0, 0⟩
    fogNear := baseFogNear
    fogFar := baseFogFar
    hudSpeed := 0
    hudAltitude := 0 }

/-- `demoState` with the crash flag raised. -/
def frozenDemoState : SimState := { demoState with isCrashing := true }

/-- A tick with no key held, keyboard input path, frame delta 0.1. -/
def demoIdleInput : TickInput :=
  { rawDelta := 0.1, now := 0, isTouchDevice := false, keys := noKeys,
    touch := initialTouchControls, rnd := fun _ => 0 }

/-! ## Theorems about the frame orchestrator -/

/-- C5 (confirmed): a tick that begins with the crash flag set leaves the
aircraft position, orientation quaternion, linear velocity and angular
velocity untouched (the whole physics block — flight dynamics, world wrap,
collision handling — is skipped), while the explosion-particle aging, the
camera follow, the edge fog and the HUD speed/altitude still run, computed
from the frozen aircraft state. -/
theorem crashing_tick_freezes_physics (inp : TickInput) (s : SimState)
    (h : s.isCrashing = true) :
    (animateTick inp s).pos = s.pos ∧
    (animateTick inp s).quat = s.quat ∧
    (animateTick inp s).vel = s.vel ∧
    (animateTick inp s).angVel = s.angVel ∧
    (animateTick inp s).explosion = updateCrashExplosionBuffer inp.now s.explosion ∧
    (animateTick inp s).hudSpeed = s.vel.length ∧
    (animateTick inp s).hudAltitude =
      max 0 (s.pos.y - max (getProceduralTerrainHeight s.pos.x s.pos.z) WATER_LEVEL) ∧
    (animateTick inp s).fogNear =
      lerpR baseFogNear (baseFogNear * edgeFogNearFactor)
        (if Real.sqrt (s.pos.x * s.pos.x + s.pos.z * s.pos.z) > edgeFogStartDistance then
          smoothstepR (Real.sqrt (s.pos.x * s.pos.x + s.pos.z * s.pos.z))
            edgeFogStartDistance edgeFogFullDistance
        else 0) ∧
    (animateTick inp s).cameraPos =
      s.cameraPos.lerp (s.pos + s.quat.rotate ⟨0, 7, 20⟩)
        (1 - Real.rpow (1 - cameraSmoothness) (min inp.rawDelta 0.1 * 60)) := by
  unfold animateTick
  simp only [h, if_true]
  unfold applyFrameEffects
  exact ⟨rfl, rfl, rfl, rfl, rfl, rfl, rfl, rfl, rfl⟩

/-- C5 witness: the freeze, evaluated on a concrete crashing state. -/
theorem crashing_tick_freezes_physics_witness :
    (frozenDemoState.isCrashing = true) ∧
    (animateTick demoIdleInput frozenDemoState).pos = frozenDemoState.pos ∧
    (animateTick demoIdleInput frozenDemoState).vel = frozenDemoState.vel ∧
    (animateTick demoIdleInput frozenDemoState).explosion =
      updateCrashExplosionBuffer demoIdleInput.now frozenDemoState.explosion := by
  have h := crashing_tick_freezes_physics demoIdleInput frozenDemoState rfl
  exact ⟨rfl, h.1, h.2.2.1, h.2.2.2.2.1⟩

/-- The joystick handlers never write a nonzero yaw. -/
theorem applyJoystickEvent_yaw (tc : TouchControls) (e : JoystickEvent) (h : tc.yaw = 0) :
    (applyJoystickEvent tc e).yaw = 0 := by
  cases e with
  | leftMove angleRad dist => exact h
  | leftEnd => exact h
  | rightMove angleRad dist => rfl
  | rightEnd => rfl

theorem foldl_joystick_yaw (events : List JoystickEvent) :
    ∀ (tc : TouchControls), tc.yaw = 0 → (events.foldl applyJoystickEvent tc).yaw = 0 := by
  induction events with
  | nil => intro tc h; exact h
  | cons e rest ih =>
    intro tc h
    exact ih (applyJoystickEvent tc e) (applyJoystickEvent_yaw tc e h)

/-- C10 (confirmed): the yaw control input is 0 on every tick.  Any sequence
of joystick events starting from the initial `touchControls` leaves
`touchControls.yaw = 0` (the right-stick handlers explicitly force it to 0);
the resolved per-tick control input always has yaw 0 on both the keyboard path
(the `q`/`e` bindings are absent) and the touch path; hence the target yaw
rate `yawInput * yawRate` is 0, and the y component of the angular velocity is
only multiplicatively damped — `w.y * (1 - adjust*dt) * damping^(60*dt)` —
never driven by input. -/
theorem yaw_input_always_zero :
    (∀ events : List JoystickEvent,
      (events.foldl applyJoystickEvent initialTouchControls).yaw = 0) ∧
    (∀ (isTouchDevice : Bool) (keys : KeyState) (tc : TouchControls),
      (resolveInput isTouchDevice keys tc).yaw = 0) ∧
    (∀ (isTouchDevice : Bool) (keys : KeyState) (tc : TouchControls) (dt : ℝ) (w : Vec3),
      (resolveInput isTouchDevice keys tc).yaw * yawRate = 0 ∧
      (angularUpdate (resolveInput isTouchDevice keys tc) dt w).y =
        w.y * (1 - angularAdjustFactor * dt) * effectiveAngularDamping dt) := by
  have hyaw : ∀ (isTouchDevice : Bool) (keys : KeyState) (tc : TouchControls),
      (resolveInput isTouchDevice keys tc).yaw = 0 := by
    intro isTouchDevice keys tc
    unfold resolveInput
    cases isTouchDevice <;> rfl
  refine ⟨fun events => foldl_joystick_yaw events initialTouchControls rfl, hyaw, ?_⟩
  intro isTouchDevice keys tc dt w
  refine ⟨by rw [hyaw]; ring, ?_⟩
  unfold angularUpdate Vec3.multiplyScalar
  simp only [hyaw]
  ring

/-! ## Speed-cap analysis (C3) -/

theorem Vec3.multiplyScalar_one (v : Vec3) : v.multiplyScalar 1 = v := by
  unfold Vec3.multiplyScalar; cases v; simp

theorem Vec3.multiplyScalar_multiplyScalar (v : Vec3) (a b : ℝ) :
    (v.multiplyScalar a).multiplyScalar b = v.multiplyScalar (a * b) := by
  unfold Vec3.multiplyScalar
  simp only [Vec3.mk.injEq]
  refine ⟨by ring, by ring, by ring⟩

/-- The speed-cap step returns a nonnegative scalar multiple of its input
(direction preserved) whose squared magnitude is at most the squared cap. -/
theorem speedCapStep_spec (cap : ℝ) (v : Vec3) (hcap : 0 ≤ cap)
    (h6 : 1e-6 ≤ cap * cap) :
    (∃ tf : ℝ, 0 ≤ tf ∧ speedCapStep cap v = v.multiplyScalar tf) ∧
    (speedCapStep cap v).lengthSq ≤ cap * cap := by
  unfold speedCapStep
  by_cases hgt : v.lengthSq > cap * cap
  · have h6' : v.lengthSq > 1e-6 := lt_of_le_of_lt h6 hgt
    rw [if_pos hgt, if_pos h6']
    have hpos : 0 < v.lengthSq := lt_trans (by norm_num) h6'
    have hlen0 : v.length ≠ 0 := by
      intro h
      rw [v.length_eq_zero_iff] at h
      exact absurd h (ne_of_gt hpos)
    have hlenpos : 0 < v.length := lt_of_le_of_ne v.length_nonneg (Ne.symm hlen0)
    have hnorm : v.normalize = v.multiplyScalar (1 / v.length) := by
      unfold Vec3.normalize
      rw [if_neg hlen0]
    rw [hnorm, Vec3.multiplyScalar_multiplyScalar]
    constructor
    · exact ⟨1 / v.length * cap, by positivity, rfl⟩
    · rw [Vec3.lengthSq_multiplyScalar]
      have hls : v.length * v.length = v.lengthSq := v.length_sq_eq
      have hkey : 1 / v.length * cap * (1 / v.length * cap) * v.lengthSq = cap * cap := by
        rw [← hls]
        field_simp
      rw [hkey]
  · rw [if_neg hgt]
    exact ⟨⟨1, by norm_num, (Vec3.multiplyScalar_one v).symm⟩, le_of_not_lt hgt⟩

/-- The idle-decay step never increases the squared speed. -/
theorem idleDecayStep_lengthSq_le (c : ControlInput) (v : Vec3) :
    (idleDecayStep c v).lengthSq ≤ v.lengthSq := by
  unfold idleDecayStep
  split_ifs with h1 h2 h3
  · have : (⟨0, 0, 0⟩ : Vec3).lengthSq = 0 := by unfold Vec3.lengthSq; ring
    rw [this]; exact v.lengthSq_nonneg
  · rw [Vec3.lengthSq_multiplyScalar]
    nlinarith [v.lengthSq_nonneg]
  · exact le_refl _
  · exact le_refl _

/-- Collision handling never increases the squared speed: a crash zeroes the
velocity, a bounce scales each component by a factor of magnitude at most 1. -/
theorem collisionStep_vel_lengthSq_le (now : ℝ) (rnd : ℕ → ℝ) (s : SimState) :
    (collisionStep now rnd s).vel.lengthSq ≤ s.vel.lengthSq := by
  unfold collisionStep
  split_ifs with h1 h2 h3 h4
  · exact le_refl _
  · show (⟨0, 0, 0⟩ : Vec3).lengthSq ≤ s.vel.lengthSq
    have h0 : (⟨0, 0, 0⟩ : Vec3).lengthSq = 0 := by unfold Vec3.lengthSq; ring
    rw [h0]
    exact s.vel.lengthSq_nonneg
  · show (⟨s.vel.x * 0.8, s.vel.y * (-0.2), s.vel.z * 0.8⟩ : Vec3).lengthSq ≤ s.vel.lengthSq
    unfold Vec3.lengthSq
    nlinarith [sq_nonneg s.vel.x, sq_nonneg s.vel.y, sq_nonneg s.vel.z]
  · exact le_refl _
  · exact le_refl _

theorem currentMaxSpeedOf_bounds (c : ControlInput) :
    0 ≤ currentMaxSpeedOf c ∧ 1e-6 ≤ currentMaxSpeedOf c * currentMaxSpeedOf c := by
  unfold currentMaxSpeedOf maxSpeed afterburnerMultiplier
  split_ifs <;> norm_num

/-- The velocity pipeline ends below the current cap regardless of its input:
the cap step clamps and the idle-decay step only shrinks. -/
theorem velocityUpdate_lengthSq_le (c : ControlInput) (dt : ℝ) (fwd v : Vec3) :
    (velocityUpdate c dt fwd v).lengthSq ≤ currentMaxSpeedOf c * currentMaxSpeedOf c := by
  obtain ⟨h0, h6⟩ := currentMaxSpeedOf_bounds c
  unfold velocityUpdate
  exact le_trans (idleDecayStep_lengthSq_le c _) (speedCapStep_spec _ _ h0 h6).2

theorem applyFrameEffects_vel (dt : ℝ) (s : SimState) : (applyFrameEffects dt s).vel = s.vel :=
  rfl

theorem applyFrameEffects_pos (dt : ℝ) (s : SimState) : (applyFrameEffects dt s).pos = s.pos :=
  rfl

theorem applyFrameEffects_isCrashing (dt : ℝ) (s : SimState) :
    (applyFrameEffects dt s).isCrashing = s.isCrashing := rfl

theorem applyFrameEffects_explosionCount (dt : ℝ) (s : SimState) :
    (applyFrameEffects dt s).explosionCount = s.explosionCount := rfl

theorem applyFrameEffects_resetScheduleCount (dt : ℝ) (s : SimState) :
    (applyFrameEffects dt s).resetScheduleCount = s.resetScheduleCount := rfl

/-- The whole physics block ends below the current speed cap, whatever the
incoming state: the cap step clamps and every later step only shrinks. -/
theorem physicsStep_vel_lengthSq_le (isTouchDevice : Bool) (keys : KeyState)
    (touch : TouchControls) (now dt : ℝ) (rnd : ℕ → ℝ) (s : SimState) :
    (physicsStep isTouchDevice keys touch now dt rnd s).vel.lengthSq ≤
      currentMaxSpeedOf (resolveInput isTouchDevice keys touch) *
        currentMaxSpeedOf (resolveInput isTouchDevice keys touch) := by
  unfold physicsStep
  refine le_trans (collisionStep_vel_lengthSq_le _ _ _) ?_
  exact velocityUpdate_lengthSq_le _ _ _ _

/-- One tick with afterburner on ends with squared speed at most
`max` of the previous squared speed (crashing tick: frozen velocity) and
`200² = (maxSpeed * afterburnerMultiplier)²`. -/
theorem animateTick_vel_lengthSq_le (inp : TickInput) (s : SimState)
    (hab : (resolveInput inp.isTouchDevice inp.keys inp.touch).afterburner = true) :
    (animateTick inp s).vel.lengthSq ≤ max s.vel.lengthSq (200 * 200) := by
  unfold animateTick
  rw [applyFrameEffects_vel]
  by_cases hc : s.isCrashing
  · simp only [hc, if_true]
    exact le_max_left _ _
  · rw [if_neg hc]
    refine le_trans ?_ (le_max_right _ _)
    have h := physicsStep_vel_lengthSq_le inp.isTouchDevice inp.keys inp.touch inp.now
      (min inp.rawDelta 0.1) inp.rnd
      { s with explosion := updateCrashExplosionBuffer inp.now s.explosion }
    have hcap : currentMaxSpeedOf (resolveInput inp.isTouchDevice inp.keys inp.touch) = 200 := by
      unfold currentMaxSpeedOf
      rw [hab]
      norm_num [maxSpeed, afterburnerMultiplier]
    rw [hcap] at h
    exact h

/-- C3 (confirmed): starting from zero velocity, after any number of ticks
whose resolved input keeps the afterburner on (thrust arbitrary, in particular
saturated), the velocity magnitude is at most
`maxSpeed * afterburnerMultiplier = 200` (so a fortiori at most `200 + ε` for
every `ε ≥ 0`); and the speed-cap step always returns a nonnegative scalar
multiple of its input — it rescales an over-cap velocity to the cap while
preserving its direction — and no later step of the tick (idle decay,
collision) increases the magnitude past the cap. -/
theorem speed_cap_invariant (s0 : SimState) (ins : ℕ → TickInput)
    (hv0 : s0.vel = ⟨0, 0, 0⟩)
    (hab : ∀ k,
      (resolveInput (ins k).isTouchDevice (ins k).keys (ins k).touch).afterburner = true) :
    (∀ n, (runTicks ins s0 n).vel.length ≤ maxSpeed * afterburnerMultiplier) ∧
    (∀ (cap : ℝ) (v : Vec3), 0 ≤ cap → 1e-6 ≤ cap * cap →
      (∃ tf : ℝ, 0 ≤ tf ∧ speedCapStep cap v = v.multiplyScalar tf) ∧
      (speedCapStep cap v).lengthSq ≤ cap * cap) := by
  constructor
  · have hbound : ∀ n, (runTicks ins s0 n).vel.lengthSq ≤ 200 * 200 := by
      intro n
      induction n with
      | zero =>
        show s0.vel.lengthSq ≤ 200 * 200
        rw [hv0]
        unfold Vec3.lengthSq
        norm_num
      | succ n ih =>
        have h := animateTick_vel_lengthSq_le (ins n) (runTicks ins s0 n) (hab n)
        exact le_trans h (max_le ih (le_refl _))
    intro n
    have h200 : maxSpeed * afterburnerMultiplier = 200 := by
      norm_num [maxSpeed, afterburnerMultiplier]
    rw [h200]
    have hsqrt : (runTicks ins s0 n).vel.length ≤ Real.sqrt (200 * 200) := by
      unfold Vec3.length
      exact Real.sqrt_le_sqrt (hbound n)
    rwa [Real.sqrt_mul_self (by norm_num : (0 : ℝ) ≤ 200)] at hsqrt
  · intro cap v h0 h6
    exact speedCapStep_spec cap v h0 h6

/-- Keys held for the saturated-thrust afterburner scenario. -/
def afterburnerKeys : KeyState := { noKeys with space := true, shift := true }

/-- A tick input with thrust and afterburner held on the keyboard path. -/
def demoAfterburnerInput : TickInput := { demoIdleInput with keys := afterburnerKeys }

/-- C3 witness: the invariant instantiated on the concrete afterburner
scenario from the initial at-rest state. -/
theorem speed_cap_invariant_witness :
    demoState.vel = ⟨0, 0, 0⟩ ∧
    (∀ _k : ℕ, (resolveInput (demoAfterburnerInput).isTouchDevice (demoAfterburnerInput).keys
      (demoAfterburnerInput).touch).afterburner = true) ∧
    ∀ n, (runTicks (fun _ => demoAfterburnerInput) demoState n).vel.length ≤
      maxSpeed * afterburnerMultiplier := by
  refine ⟨rfl, fun _k => rfl, ?_⟩
  exact (speed_cap_invariant demoState (fun _ => demoAfterburnerInput) rfl (fun _k => rfl)).1

/-! ## Crash single-trigger (C4) -/

/-- A tick that starts in the crash state changes none of the crash
bookkeeping: the flag stays set and neither the explosion trigger nor the
reset scheduling runs again. -/
theorem animateTick_crashing_frozen (inp : TickInput) (s : SimState)
    (h : s.isCrashing = true) :
    (animateTick inp s).isCrashing = true ∧
    (animateTick inp s).explosionCount = s.explosionCount ∧
    (animateTick inp s).resetScheduleCount = s.resetScheduleCount := by
  unfold animateTick
  simp only [h, if_true]
  exact ⟨rfl, rfl, rfl⟩

/-- A tick that enters the crash state increments the explosion and
reset-schedule counters by exactly one. -/
theorem animateTick_crash_entry (inp : TickInput) (s : SimState)
    (h0 : s.isCrashing = false)
    (h1 : (animateTick inp s).isCrashing = true) :
    (animateTick inp s).explosionCount = s.explosionCount + 1 ∧
    (animateTick inp s).resetScheduleCount = s.resetScheduleCount + 1 := by
  have hc : ¬ (s.isCrashing = true) := by rw [h0]; exact Bool.false_ne_true
  unfold animateTick at h1 ⊢
  simp only [h0, Bool.false_eq_true, if_false, applyFrameEffects_isCrashing,
    applyFrameEffects_explosionCount, applyFrameEffects_resetScheduleCount] at h1 ⊢
  unfold physicsStep at h1 ⊢
  unfold collisionStep at h1 ⊢
  simp only [] at h1 ⊢
  split_ifs at h1 ⊢ with ha hb hbounce
  · exact ⟨rfl, rfl⟩

/-- C4 (confirmed): with the crash state and ground-proximity condition
producing a crash entry on some tick, the crash-entry block runs exactly once:
that tick increments the explosion-trigger and reset-schedule counters by one,
and every further tick (under any input sequence) begins with the crash flag
still set and leaves both counters unchanged — no re-trigger and no
re-schedule until a reset (which only the external timer callback performs). -/
theorem crash_single_trigger (inp : TickInput) (s : SimState) (ins : ℕ → TickInput)
    (h0 : s.isCrashing = false)
    (h1 : (animateTick inp s).isCrashing = true) :
    (animateTick inp s).explosionCount = s.explosionCount + 1 ∧
    (animateTick inp s).resetScheduleCount = s.resetScheduleCount + 1 ∧
    ∀ n, (runTicks ins (animateTick inp s) n).isCrashing = true ∧
      (runTicks ins (animateTick inp s) n).explosionCount = s.explosionCount + 1 ∧
      (runTicks ins (animateTick inp s) n).resetScheduleCount = s.resetScheduleCount + 1 := by
  obtain ⟨he, hr⟩ := animateTick_crash_entry inp s h0 h1
  refine ⟨he, hr, ?_⟩
  intro n
  induction n with
  | zero => exact ⟨h1, he, hr⟩
  | succ n ih =>
    obtain ⟨ihc, ihe, ihr⟩ := ih
    obtain ⟨hc', he', hr'⟩ := animateTick_crashing_frozen (ins n) (runTicks ins (animateTick inp s) n) ihc
    refine ⟨hc', ?_, ?_⟩
    · show (animateTick (ins n) (runTicks ins (animateTick inp s) n)).explosionCount =
        s.explosionCount + 1
      rw [he', ihe]
    · show (animateTick (ins n) (runTicks ins (animateTick inp s) n)).resetScheduleCount =
        s.resetScheduleCount + 1
      rw [hr', ihr]

/-! ## Concrete tick evaluation -/

theorem Vec3.multiplyScalar_zero (v : Vec3) : v.multiplyScalar 0 = ⟨0, 0, 0⟩ := by
  unfold Vec3.multiplyScalar; simp

theorem Vec3.add_zero_right (v : Vec3) : v + ⟨0, 0, 0⟩ = v := by
  cases v; simp [Vec3.add_def]

theorem Vec3.length_xaxis (a : ℝ) : Vec3.length ⟨a, 0, 0⟩ = |a| := by
  unfold Vec3.length Vec3.lengthSq
  rw [show a * a + 0 * 0 + 0 * 0 = a ^ 2 by ring, Real.sqrt_sq_eq_abs]

theorem keyboardIdleControl_eq :
    keyboardIdleControl =
      { pitch := 0, roll := 0, yaw := 0, thrust := 0, brake := false, afterburner := false } :=
  rfl

theorem thrustForceOf_idle : thrustForceOf keyboardIdleControl = 0 := by
  rw [keyboardIdleControl_eq]
  unfold thrustForceOf
  norm_num

theorem currentMaxSpeedOf_idle : currentMaxSpeedOf keyboardIdleControl = 80 := by
  rw [keyboardIdleControl_eq]
  unfold currentMaxSpeedOf
  norm_num [maxSpeed]

theorem angularUpdate_idle (dt : ℝ) :
    angularUpdate keyboardIdleControl dt ⟨0, 0, 0⟩ = ⟨0, 0, 0⟩ := by
  rw [keyboardIdleControl_eq]
  unfold angularUpdate Vec3.multiplyScalar
  simp only [Vec3.mk.injEq]
  refine ⟨by ring, by ring, by ring⟩

theorem orientationUpdate_zero_id (dt : ℝ) :
    orientationUpdate ⟨0, 0, 0⟩ dt Quat.identity = Quat.identity := by
  have hd : (⟨0, 0, 0⟩ : Vec3).multiplyScalar dt = ⟨0, 0, 0⟩ := by
    unfold Vec3.multiplyScalar; simp
  simp only [orientationUpdate, hd]
  rw [Quat.setFromAxisAngle_zero, Quat.setFromAxisAngle_zero, Quat.setFromAxisAngle_zero]
  rw [Quat.mul_identity, Quat.mul_identity, Quat.mul_identity]
  rw [if_pos (by rw [Quat.identity_lengthSq]; norm_num : Quat.identity.lengthSq > 1e-6)]
  exact Quat.normalize_identity

theorem forward_identity : ((Quat.identity).rotate ⟨0, 0, -1⟩).normalize = ⟨0, 0, -1⟩ := by
  rw [Quat.rotate_identity]
  unfold Vec3.normalize Vec3.length Vec3.lengthSq
  norm_num [Real.sqrt_one, Vec3.multiplyScalar]

/-- The velocity pipeline under the no-key keyboard input: no thrust, no
brake; only drag, cap and idle decay act. -/
theorem velocityUpdate_idle (dt : ℝ) (fwd v : Vec3) :
    velocityUpdate keyboardIdleControl dt fwd v =
      idleDecayStep keyboardIdleControl
        (speedCapStep 80 (v + v.multiplyScalar (-linearDragFactor * dt))) := by
  simp only [velocityUpdate]
  rw [thrustForceOf_idle, zero_mul, Vec3.multiplyScalar_zero, currentMaxSpeedOf_idle]
  have hbrake : ¬ (keyboardIdleControl.brake = true ∧ v.lengthSq > 0.01) := by
    rw [keyboardIdleControl_eq]
    simp
  rw [if_neg hbrake, Vec3.add_zero_right, Vec3.add_zero_right]

/-- A position whose horizontal coordinates are at most 1 in absolute value is
far inside the world boundary, so the wrap is the identity on it. -/
theorem applyWorldWrap_small (p : Vec3) (hx : p.x * p.x ≤ 1) (hz : p.z * p.z ≤ 1) :
    applyWorldWrap p = p := by
  have hB : WORLD_BOUNDARY = 1187.5 := by norm_num [WORLD_BOUNDARY, TERRAIN_SIZE]
  unfold applyWorldWrap
  rw [hB]
  rw [if_neg (by nlinarith : ¬ p.x > (1187.5 : ℝ)),
    if_neg (by nlinarith : ¬ p.x < -(1187.5 : ℝ)),
    if_neg (by nlinarith : ¬ p.z > (1187.5 : ℝ)),
    if_neg (by nlinarith : ¬ p.z < -(1187.5 : ℝ))]

/-- The effective ground level is at most `540` (clamp bound), so an aircraft
at altitude `600` or more is never in ground contact. -/
theorem collisionStep_high (now : ℝ) (rnd : ℕ → ℝ) (s : SimState) (hy : 600 ≤ s.pos.y) :
    collisionStep now rnd s = s := by
  unfold collisionStep
  rw [if_neg]
  have h1 := getProceduralTerrainHeight_le s.pos.x s.pos.z
  have h2 : effectiveGroundLevelAt s.pos ≤ 540 := by
    unfold effectiveGroundLevelAt
    exact max_le h1 (by norm_num [WATER_LEVEL])
  unfold AIRCRAFT_GROUND_BUFFER
  linarith

/-- The idle-decay step maps a velocity on the x axis to a scalar multiple of
it by a factor in `[0, 1]` (`1`, `0.9` or `0` depending on the branch). -/
theorem idleDecayStep_xaxis (c : ControlInput) (a : ℝ) :
    ∃ tf : ℝ, 0 ≤ tf ∧ tf ≤ 1 ∧ idleDecayStep c ⟨a, 0, 0⟩ = ⟨a * tf, 0, 0⟩ := by
  unfold idleDecayStep
  split_ifs with h1 h2 h3
  · exact ⟨0, by norm_num, by norm_num, by simp⟩
  · refine ⟨0.9, by norm_num, by norm_num, ?_⟩
    unfold Vec3.multiplyScalar
    norm_num
  · exact ⟨1, by norm_num, by norm_num, by simp⟩
  · exact ⟨1, by norm_num, by norm_num, by simp⟩

/-- The physics block under the no-key keyboard input from a level state
(identity orientation, no angular velocity). -/
theorem physicsStep_idle_eval (now dt : ℝ) (rnd : ℕ → ℝ) (s : SimState)
    (hq : s.quat = Quat.identity) (hw : s.angVel = ⟨0, 0, 0⟩) :
    physicsStep false noKeys initialTouchControls now dt rnd s =
      collisionStep now rnd
        { s with
            angVel := ⟨0, 0, 0⟩
            quat := Quat.identity
            vel := velocityUpdate keyboardIdleControl dt ⟨0, 0, -1⟩ s.vel
            pos := applyWorldWrap (s.pos +
              (velocityUpdate keyboardIdleControl dt ⟨0, 0, -1⟩ s.vel).multiplyScalar dt) } := by
  simp only [physicsStep]
  rw [show resolveInput false noKeys initialTouchControls = keyboardIdleControl from rfl]
  rw [hq, hw, angularUpdate_idle, orientationUpdate_zero_id, forward_identity]

/-! ### Scenario fixtures -/

/-- The idle-thrust-decay scenario state: level flight at altitude 1000 with
velocity `(vx, 0, 0)`. -/
def mkIdleState (vx : ℝ) : SimState := { demoState with vel := ⟨vx, 0, 0⟩ }

/-- A keyboard tick input with no key held and the given raw frame delta. -/
def idleInputAt (rawDelta : ℝ) : TickInput :=
  { rawDelta := rawDelta, now := 0, isTouchDevice := false, keys := noKeys,
    touch := initialTouchControls, rnd := fun _ => 0 }

/-- A state about to crash: at ground level over the origin, falling at
50 units/s. -/
def crashDemoState : SimState := { demoState with pos := ⟨0, 0, 0⟩, vel := ⟨0, -50, 0⟩ }

/-- One idle tick from the scenario state: the velocity after the tick is the
idle-decay step applied to the dragged velocity `(vx*(1 - 0.5*dt), 0, 0)` —
neither the cap, the wrap, nor the collision check interferes. -/
theorem animateTick_idle_vel (rawDelta : ℝ) (h0 : 0 ≤ rawDelta) (h1 : rawDelta ≤ 0.1)
    (vx : ℝ) (hvx : vx * vx ≤ 1) :
    (animateTick (idleInputAt rawDelta) (mkIdleState vx)).vel =
      idleDecayStep keyboardIdleControl ⟨vx * (1 - 0.5 * rawDelta), 0, 0⟩ := by
  simp only [animateTick, idleInputAt, mkIdleState, demoState, Bool.false_eq_true, if_false]
  rw [min_eq_left h1]
  rw [applyFrameEffects_vel]
  rw [physicsStep_idle_eval 0 rawDelta (fun _ => 0) _ rfl rfl]
  rw [velocityUpdate_idle]
  have hv2 : (⟨vx, 0, 0⟩ : Vec3) + (⟨vx, 0, 0⟩ : Vec3).multiplyScalar (-linearDragFactor * rawDelta)
      = ⟨vx * (1 - 0.5 * rawDelta), 0, 0⟩ := by
    unfold Vec3.multiplyScalar linearDragFactor
    simp [Vec3.add_def]
    ring
  rw [hv2]
  have hcap : speedCapStep 80 ⟨vx * (1 - 0.5 * rawDelta), 0, 0⟩ =
      ⟨vx * (1 - 0.5 * rawDelta), 0, 0⟩ := by
    unfold speedCapStep Vec3.lengthSq
    rw [if_neg]
    have hd2 : (1 - 0.5 * rawDelta) * (1 - 0.5 * rawDelta) ≤ 1 := by nlinarith
    have hvv : vx * (1 - 0.5 * rawDelta) * (vx * (1 - 0.5 * rawDelta)) ≤ 1 := by
      nlinarith [mul_self_nonneg vx, mul_self_nonneg (1 - 0.5 * rawDelta)]
    intro hgt
    nlinarith
  rw [hcap]
  obtain ⟨tf, htf0, htf1, hveq⟩ := idleDecayStep_xaxis keyboardIdleControl
    (vx * (1 - 0.5 * rawDelta))
  rw [hveq]
  have hpos : (⟨0, 1000, 0⟩ : Vec3) +
      (⟨vx * (1 - 0.5 * rawDelta) * tf, 0, 0⟩ : Vec3).multiplyScalar rawDelta =
      ⟨vx * (1 - 0.5 * rawDelta) * tf * rawDelta, 1000, 0⟩ := by
    unfold Vec3.multiplyScalar
    simp [Vec3.add_def]
  rw [hpos]
  have hwrap : applyWorldWrap ⟨vx * (1 - 0.5 * rawDelta) * tf * rawDelta, 1000, 0⟩ =
      ⟨vx * (1 - 0.5 * rawDelta) * tf * rawDelta, 1000, 0⟩ := by
    apply applyWorldWrap_small
    · show vx * (1 - 0.5 * rawDelta) * tf * rawDelta *
        (vx * (1 - 0.5 * rawDelta) * tf * rawDelta) ≤ 1
      have hd2 : (1 - 0.5 * rawDelta) * (1 - 0.5 * rawDelta) ≤ 1 := by nlinarith
      have htf2 : tf * tf ≤ 1 := by nlinarith
      have hAB : vx * (1 - 0.5 * rawDelta) * (vx * (1 - 0.5 * rawDelta)) ≤ 1 := by
        nlinarith [mul_self_nonneg vx, mul_self_nonneg (1 - 0.5 * rawDelta)]
      have hABt : vx * (1 - 0.5 * rawDelta) * tf * (vx * (1 - 0.5 * rawDelta) * tf) ≤ 1 := by
        nlinarith [mul_self_nonneg (vx * (1 - 0.5 * rawDelta)), mul_self_nonneg tf]
      have hdd : rawDelta * rawDelta ≤ 1 := by nlinarith
      calc vx * (1 - 0.5 * rawDelta) * tf * rawDelta *
            (vx * (1 - 0.5 * rawDelta) * tf * rawDelta)
          = (vx * (1 - 0.5 * rawDelta) * tf * (vx * (1 - 0.5 * rawDelta) * tf)) *
            (rawDelta * rawDelta) := by ring
        _ ≤ 1 * 1 := mul_le_mul hABt hdd (mul_self_nonneg rawDelta) zero_le_one
        _ = 1 := by norm_num
    · show (0 : ℝ) * 0 ≤ 1
      norm_num
  rw [hwrap]
  rw [collisionStep_high 0 (fun _ => 0) _ (by norm_num : (600 : ℝ) ≤ 1000)]

/-! ## Idle-thrust decay (C2) -/

/-- C2 counterexample: the claim fails at concrete inputs on two counts.
With velocity `(0.3, 0, 0)`, thrust 0, brake off and `dt = 0.1`, one tick
gives magnitude `0.3 * 0.95 * 0.9 = 0.25650`, not `0.9 * 0.3 = 0.27`: the
drag step also shrinks the velocity before the decay multiplies it by `0.9`.
And with velocity `(0.05, 0, 0)` — magnitude `0.05 < 0.1`, i.e. already below
the claimed epsilon — one tick does NOT snap to `(0, 0, 0)`: the decay branch
requires squared magnitude strictly above `0.01`, so the velocity stays
`(0.0475, 0, 0)`. -/
theorem idle_decay_claim_counterexample :
    (animateTick (idleInputAt 0.1) (mkIdleState 0.3)).vel.length ≠
      0.9 * Vec3.length ⟨0.3, 0, 0⟩ ∧
    Vec3.length ⟨0.05, 0, 0⟩ < 0.1 ∧
    (animateTick (idleInputAt 0.1) (mkIdleState 0.05)).vel ≠ ⟨0, 0, 0⟩ := by
  refine ⟨?_, ?_, ?_⟩
  · have h := animateTick_idle_vel 0.1 (by norm_num) (by norm_num) 0.3 (by norm_num)
    rw [h]
    have hc0 : keyboardIdleControl.thrust < 0.1 ∧ keyboardIdleControl.brake = false := by
      rw [keyboardIdleControl_eq]; exact ⟨by norm_num, rfl⟩
    have hc1 : (⟨0.3 * (1 - 0.5 * 0.1), 0, 0⟩ : Vec3).lengthSq < minSpeed * minSpeed ∧
        (⟨0.3 * (1 - 0.5 * 0.1), 0, 0⟩ : Vec3).lengthSq > 0.01 := by
      unfold Vec3.lengthSq minSpeed
      norm_num
    have hc2 : ¬ (((⟨0.3 * (1 - 0.5 * 0.1), 0, 0⟩ : Vec3).multiplyScalar 0.9).lengthSq
        < 0.01) := by
      unfold Vec3.multiplyScalar Vec3.lengthSq
      norm_num
    have hval : idleDecayStep keyboardIdleControl ⟨0.3 * (1 - 0.5 * 0.1), 0, 0⟩ =
        ⟨0.2565, 0, 0⟩ := by
      unfold idleDecayStep
      rw [if_pos hc0, if_pos hc1, if_neg hc2]
      unfold Vec3.multiplyScalar
      norm_num
    rw [hval, Vec3.length_xaxis, Vec3.length_xaxis,
      abs_of_pos (show (0 : ℝ) < 0.2565 by norm_num),
      abs_of_pos (show (0 : ℝ) < 0.3 by norm_num)]
    norm_num
  · rw [Vec3.length_xaxis, abs_of_pos (show (0 : ℝ) < 0.05 by norm_num)]
    norm_num
  · have h := animateTick_idle_vel 0.1 (by norm_num) (by norm_num) 0.05 (by norm_num)
    rw [h]
    have hc0 : keyboardIdleControl.thrust < 0.1 ∧ keyboardIdleControl.brake = false := by
      rw [keyboardIdleControl_eq]; exact ⟨by norm_num, rfl⟩
    have hc1 : ¬ ((⟨0.05 * (1 - 0.5 * 0.1), 0, 0⟩ : Vec3).lengthSq < minSpeed * minSpeed ∧
        (⟨0.05 * (1 - 0.5 * 0.1), 0, 0⟩ : Vec3).lengthSq > 0.01) := by
      unfold Vec3.lengthSq minSpeed
      intro hh
      have := hh.2
      norm_num at this
    have hval : idleDecayStep keyboardIdleControl ⟨0.05 * (1 - 0.5 * 0.1), 0, 0⟩ =
        ⟨0.05 * (1 - 0.5 * 0.1), 0, 0⟩ := by
      unfold idleDecayStep
      rw [if_pos hc0, if_neg hc1]
    rw [hval]
    intro heq
    have hx : (0.05 : ℝ) * (1 - 0.5 * 0.1) = 0 := congrArg Vec3.x heq
    norm_num at hx

/-- C2 (corrected): starting a tick with velocity `(0.3, 0, 0)`, thrust 0, no
brake, `minSpeed = 0.5` and no collision/boundary interaction, one tick yields
velocity `(0.3 * (1 - linearDragFactor*dt) * 0.9, 0, 0)`: the idle-decay step
multiplies the post-drag velocity by exactly `0.9`, so the magnitude shrinks
by `0.9 * (1 - 0.5*dt)`, not by exactly `0.9`.  The snap to exactly
`(0, 0, 0)` happens only inside the decay step: it requires the squared
magnitude to be strictly above `0.01` before the `0.9` multiplication and
below `0.01` after it; a velocity entering the step with squared magnitude at
most `0.01` is left unchanged by the step. -/
theorem idle_decay_tick (dt : ℝ) (hdt0 : 0 ≤ dt) (hdt1 : dt ≤ 0.1) :
    (animateTick (idleInputAt dt) (mkIdleState 0.3)).vel =
      ⟨0.3 * (1 - 0.5 * dt) * 0.9, 0, 0⟩ ∧
    (∀ (c : ControlInput) (v : Vec3), c.thrust < 0.1 → c.brake = false →
      v.lengthSq ≤ 0.01 → idleDecayStep c v = v) ∧
    (∀ (c : ControlInput) (v : Vec3), c.thrust < 0.1 → c.brake = false →
      0.01 < v.lengthSq → v.lengthSq < minSpeed * minSpeed →
      ((v.multiplyScalar 0.9).lengthSq < 0.01 → idleDecayStep c v = ⟨0, 0, 0⟩) ∧
      (¬ (v.multiplyScalar 0.9).lengthSq < 0.01 →
        idleDecayStep c v = v.multiplyScalar 0.9)) := by
  refine ⟨?_, ?_, ?_⟩
  · rw [animateTick_idle_vel dt hdt0 hdt1 0.3 (by norm_num)]
    have hc0 : keyboardIdleControl.thrust < 0.1 ∧ keyboardIdleControl.brake = false := by
      rw [keyboardIdleControl_eq]; exact ⟨by norm_num, rfl⟩
    have hc1 : (⟨0.3 * (1 - 0.5 * dt), 0, 0⟩ : Vec3).lengthSq < minSpeed * minSpeed ∧
        (⟨0.3 * (1 - 0.5 * dt), 0, 0⟩ : Vec3).lengthSq > 0.01 := by
      unfold Vec3.lengthSq minSpeed
      constructor
      · nlinarith
      · nlinarith
    have hc2 : ¬ (((⟨0.3 * (1 - 0.5 * dt), 0, 0⟩ : Vec3).multiplyScalar 0.9).lengthSq
        < 0.01) := by
      unfold Vec3.multiplyScalar Vec3.lengthSq
      intro hh
      nlinarith
    unfold idleDecayStep
    rw [if_pos hc0, if_pos hc1, if_neg hc2]
    unfold Vec3.multiplyScalar
    simp only [Vec3.mk.injEq]
    refine ⟨by ring, by ring, by ring⟩
  · intro c v ht hb hle
    unfold idleDecayStep
    rw [if_pos ⟨ht, hb⟩, if_neg]
    intro hcond
    exact absurd hcond.2 (not_lt.mpr hle)
  · intro c v ht hb hgt hlt
    constructor
    · intro hsnap
      unfold idleDecayStep
      rw [if_pos ⟨ht, hb⟩, if_pos ⟨hlt, hgt⟩, if_pos hsnap]
    · intro hns
      unfold idleDecayStep
      rw [if_pos ⟨ht, hb⟩, if_pos ⟨hlt, hgt⟩, if_neg hns]

/-- C2 witness: the corrected tick equation at `dt = 0.1`. -/
theorem idle_decay_tick_witness :
    (0 : ℝ) ≤ 0.1 ∧ (0.1 : ℝ) ≤ 0.1 ∧
    (animateTick (idleInputAt 0.1) (mkIdleState 0.3)).vel =
      ⟨0.3 * (1 - 0.5 * 0.1) * 0.9, 0, 0⟩ := by
  have h := idle_decay_tick 0.1 (by norm_num) (by norm_num)
  exact ⟨by norm_num, by norm_num, h.1⟩

/-! ## Crash-tick evaluation (C4 witness) -/

theorem velocityUpdate_idle_down :
    velocityUpdate keyboardIdleControl 0.1 ⟨0, 0, -1⟩ ⟨0, -50, 0⟩ = ⟨0, -47.5, 0⟩ := by
  rw [velocityUpdate_idle]
  have hv2 : (⟨0, -50, 0⟩ : Vec3) +
      (⟨0, -50, 0⟩ : Vec3).multiplyScalar (-linearDragFactor * 0.1) = ⟨0, -47.5, 0⟩ := by
    unfold Vec3.multiplyScalar linearDragFactor
    simp [Vec3.add_def]
    norm_num
  rw [hv2]
  have hcap : speedCapStep 80 ⟨0, -47.5, 0⟩ = ⟨0, -47.5, 0⟩ := by
    unfold speedCapStep Vec3.lengthSq
    rw [if_neg]
    norm_num
  rw [hcap]
  have hc0 : keyboardIdleControl.thrust < 0.1 ∧ keyboardIdleControl.brake = false := by
    rw [keyboardIdleControl_eq]; exact ⟨by norm_num, rfl⟩
  have hc1 : ¬ ((⟨0, -47.5, 0⟩ : Vec3).lengthSq < minSpeed * minSpeed ∧
      (⟨0, -47.5, 0⟩ : Vec3).lengthSq > 0.01) := by
    unfold Vec3.lengthSq minSpeed
    intro hh
    have := hh.1
    norm_num at this
  unfold idleDecayStep
  rw [if_pos hc0, if_neg hc1]

/-- One idle tick from `crashDemoState` enters the crash state. -/
theorem animateTick_crash_eval :
    (animateTick (idleInputAt 0.1) crashDemoState).isCrashing = true := by
  simp only [animateTick, idleInputAt, crashDemoState, demoState, Bool.false_eq_true, if_false]
  rw [min_self]
  rw [applyFrameEffects_isCrashing]
  rw [physicsStep_idle_eval 0 0.1 (fun _ => 0) _ rfl rfl]
  rw [velocityUpdate_idle_down]
  have hpos : (⟨0, 0, 0⟩ : Vec3) + (⟨0, -47.5, 0⟩ : Vec3).multiplyScalar 0.1 =
      ⟨0, -4.75, 0⟩ := by
    unfold Vec3.multiplyScalar
    simp [Vec3.add_def]
    norm_num
  rw [hpos]
  rw [applyWorldWrap_small _ (by norm_num) (by norm_num)]
  unfold collisionStep
  split_ifs with h1 h2 h3 h4
  · exact h3
  · rfl
  · exfalso
    apply h2
    show (-47.5 : ℝ) < CRASH_VELOCITY_THRESHOLD
    norm_num [CRASH_VELOCITY_THRESHOLD]
  · exfalso
    apply h2
    show (-47.5 : ℝ) < CRASH_VELOCITY_THRESHOLD
    norm_num [CRASH_VELOCITY_THRESHOLD]
  · exfalso
    apply h1
    show (-4.75 : ℝ) < effectiveGroundLevelAt ⟨0, -4.75, 0⟩ + AIRCRAFT_GROUND_BUFFER
    have h5 : WATER_LEVEL ≤ effectiveGroundLevelAt ⟨0, -4.75, 0⟩ := le_max_right _ _
    unfold WATER_LEVEL at h5
    unfold AIRCRAFT_GROUND_BUFFER
    linarith

/-- C4 witness: the single-trigger property on the concrete crash scenario. -/
theorem crash_single_trigger_witness :
    crashDemoState.isCrashing = false ∧
    (animateTick (idleInputAt 0.1) crashDemoState).isCrashing = true ∧
    (animateTick (idleInputAt 0.1) crashDemoState).explosionCount =
      crashDemoState.explosionCount + 1 ∧
    (animateTick (idleInputAt 0.1) crashDemoState).resetScheduleCount =
      crashDemoState.resetScheduleCount + 1 ∧
    ∀ n, (runTicks (fun _ => idleInputAt 0.1)
        (animateTick (idleInputAt 0.1) crashDemoState) n).explosionCount =
      crashDemoState.explosionCount + 1 := by
  have h1 := animateTick_crash_eval
  have h := crash_single_trigger (idleInputAt 0.1) crashDemoState
    (fun _ => idleInputAt 0.1) rfl h1
  exact ⟨rfl, h1, h.1, h.2.1, fun n => ((h.2.2) n).2.1⟩

end FlightSim
